import Mathlib

/-!
Verification of the dynamoclasses marshalling layer
(`src/dynamoclasses/__init__.py`).

The development shallowly embeds the Python module: Python values become the
inductive `PyValue`, Python exceptions become the inductive `PyErr` carried in
`Except`, the module-level `TYPE_MAPPING` dict becomes the function
`TYPE_MAPPING`, and the functions `_process_class`, `_to_dynamo`,
`_to_dataclass`, `_dataclass_field_to_dynamo_field`, `get` and `query` become
the Lean functions `processClass`, `toDynamo`, `toDataclass`,
`dcFieldToDynamoField`, `get` and `query`.  The boto3 storage client is an
explicit function parameter of `get`/`query`/`save`.
-/

set_option autoImplicit false

namespace Dynamoclasses

/-- Python exceptions raised by the module, tagged by their Python class.
The spec's error taxonomy maps onto these as follows: `InvalidKeyFieldError`
is the bare `Exception` raised by `_process_class` (`exceptionError`);
`UnsupportedTypeError` is the `KeyError` of a failed `TYPE_MAPPING` /
`__dataclass_fields__` dict lookup (`keyError`); `UnknownFieldError` is the
`ValueError` raised for an undeclared field name (`valueError`);
`ItemNotFoundError` is the module's own exception class (`itemNotFound`). -/
inductive PyErr where
  | exceptionError (msg : String)
  | keyError (msg : String)
  | valueError (msg : String)
  | typeError (msg : String)
  | itemNotFound (msg : String)
  | indexError (msg : String)
  deriving DecidableEq, Repr

/-- Python runtime values, covering the kinds the module manipulates.

Floats are modelled by their CPython `repr` string (constructor `float`);
IEEE-754 arithmetic itself is out of scope, but `str`/`float()` behaviour on
canonical representations is modelled faithfully: CPython guarantees
`float(repr(f)) == f`, which holds in this model because parsing a valid
float literal returns the float carrying exactly that literal.

A value of any Python class other than the eight kinds below (e.g. `list`
instances appear as `list`, everything else as `obj className`) is only ever
inspected for its type by the module, never deconstructed. -/
inductive PyValue where
  | str (s : String)
  | int (n : Int)
  | float (repr : String)
  | bytes (bs : List Nat)
  | dict (entries : List (PyValue × PyValue))
  | list (elems : List PyValue)
  | bool (b : Bool)
  | none
  | obj (className : String)

/-- Python type objects as they occur as `TYPE_MAPPING` keys, dataclass field
annotations, and results of `type(v)`.  `noneObj` is the object `None` used as
an annotation (`x: None`) and as a `TYPE_MAPPING` key; `noneType` is
`type(None)`, which is a *different* key and is absent from `TYPE_MAPPING`. -/
inductive PyTypeKey where
  | str | float | int | bytes | dict | bool
  | noneObj
  | noneType
  | other (name : String)
  deriving DecidableEq, Repr

/-- `type(v)` for the modelled values.  Note `type(None)` is `NoneType`, not
the `None` object, and a Python `list` has type `list`, which the module does
not support. -/
def typeOf : PyValue → PyTypeKey
  | .str _ => .str
  | .float _ => .float
  | .int _ => .int
  | .bytes _ => .bytes
  | .dict _ => .dict
  | .list _ => .other "list"
  | .bool _ => .bool
  | .none => .noneType
  | .obj n => .other n

/-- Printed form of a type key, used in `KeyError` messages. -/
def typeKeyName : PyTypeKey → String
  | .str => "<class 'str'>"
  | .float => "<class 'float'>"
  | .int => "<class 'int'>"
  | .bytes => "<class 'bytes'>"
  | .dict => "<class 'dict'>"
  | .bool => "<class 'bool'>"
  | .noneObj => "None"
  | .noneType => "<class 'NoneType'>"
  | .other n => n

/-! ### Decimal integer rendering and parsing

Python's `str(int)` and `int(str)` for the decimal forms `str` produces.
(`int()` additionally accepts surrounding whitespace, a leading `+` and
underscore separators; those inputs never arise from `str(int)` and are not
modelled.) -/

/-- One decimal digit (`d < 10` at every call site) to its character, via
the ASCII code `48 + d`. -/
def digitChar (d : Nat) : Char := Char.ofNat (48 + d)

/-- Decimal digit value of a character, `none` for non-digits. -/
def digitVal (c : Char) : Option Nat :=
  if 48 ≤ c.toNat && c.toNat ≤ 57 then some (c.toNat - 48) else Option.none

/-- Little-endian digit characters of `n` (empty for `0`); `fuel` bounds the
recursion and any `fuel ≥ n` is enough. -/
def natReprAux : Nat → Nat → List Char
  | 0, _ => []
  | fuel+1, n => if n = 0 then [] else digitChar (n % 10) :: natReprAux fuel (n / 10)

/-- Decimal character rendering of a natural number. -/
def natReprChars (n : Nat) : List Char :=
  if n = 0 then ['0'] else (natReprAux n n).reverse

/-- `str(x)` for `int` values: optional minus sign, then decimal digits. -/
def intReprChars (n : Int) : List Char :=
  if n < 0 then '-' :: natReprChars n.natAbs else natReprChars n.natAbs

/-- Digit-list accumulator parse: consumes decimal digits, failing on any
non-digit. -/
def parseDigitsAcc : Nat → List Char → Option Nat
  | acc, [] => some acc
  | acc, c :: cs =>
    match digitVal c with
    | some d => parseDigitsAcc (acc * 10 + d) cs
    | Option.none => Option.none

/-- `int(s)` on a character list: optional sign then a nonempty digit run. -/
def intParseChars : List Char → Option Int
  | [] => Option.none
  | c :: rest =>
    if c = '-' then
      if rest.isEmpty then Option.none
      else
        match parseDigitsAcc 0 rest with
        | some n => some (-(n : Int))
        | Option.none => Option.none
    else
      match parseDigitsAcc 0 (c :: rest) with
      | some n => some ((n : Int))
      | Option.none => Option.none

/-! ### Float literals

A Python float is carried as its `repr` string (see `PyValue.float`).
`isFloatLit` recognises the decimal / scientific / `inf` / `nan` literal
forms; every CPython `repr` of a float is such a literal and contains no
whitespace, so `float(repr(f))` returns `f` in this model exactly as in
CPython. -/

/-- Mantissa part of a float literal: `digits`, `digits.digits*`, or
`.digits+` (optionally) followed by an exponent handled separately. -/
def isMantissa (cs : List Char) : Bool :=
  let digits := fun l => List.all l fun c => (digitVal c).isSome
  match cs.span (fun c => (digitVal c).isSome) with
  | (_ :: _, []) => true
  | (intPart, '.' :: frac) => (intPart ≠ [] || frac ≠ []) && digits frac
  | _ => false

/-- Exponent-splitting float literal body (after the optional sign). -/
def isFloatBody (cs : List Char) : Bool :=
  match cs.span (fun c => c ≠ 'e' && c ≠ 'E') with
  | (mant, []) => isMantissa mant
  | (mant, _e :: ex) =>
    let exDigits := match ex with
      | '+' :: ds => ds
      | '-' :: ds => ds
      | ds => ds
    isMantissa mant && exDigits ≠ [] && List.all exDigits (fun c => (digitVal c).isSome)

/-- `True` on the strings `float()` accepts in the forms `repr` can emit:
optional sign, then a decimal/scientific mantissa or `inf`/`infinity`/`nan`
(case-insensitively in CPython; only the lowercase `repr` spellings are
modelled). -/
def isFloatLitChars (cs : List Char) : Bool :=
  let body := match cs with
    | '-' :: rest => rest
    | '+' :: rest => rest
    | rest => rest
  body = ['i','n','f'] || body = ['n','a','n'] ||
    body = ['i','n','f','i','n','i','t','y'] || isFloatBody body

/-- String form of `isFloatLitChars`. -/
def isFloatLit (s : String) : Bool := isFloatLitChars s.data

/-- Characters Python `float()`/`int()` strip around a numeric string. -/
def isPySpace (c : Char) : Bool := c = ' ' || c = '\t' || c = '\n' || c = '\r'

/-- The surrounding-whitespace stripping `int()`/`float()` perform. -/
def pyStripChars (cs : List Char) : List Char :=
  ((cs.dropWhile isPySpace).reverse.dropWhile isPySpace).reverse

/-- `float(s)` for strings: accepts (possibly whitespace-padded) float
literals and returns the float carrying the trimmed literal; everything else
raises `ValueError`.  (CPython would additionally canonicalise, e.g.
`float("1.50")` prints back as `1.5`; no verified claim evaluates `float()`
on a non-canonical literal, and canonicalisation of IEEE-754 values is not
modelled.) -/
def floatParseChars (cs : List Char) : Except PyErr PyValue :=
  if isFloatLitChars (pyStripChars cs) then .ok (.float (String.mk (pyStripChars cs)))
  else .error (.valueError ("could not convert string to float: " ++ String.mk cs))

/-! ### `str()` / `repr()` rendering -/

/-- Lower-case hexadecimal digit. -/
def hexChar (d : Nat) : Char :=
  if d < 10 then digitChar d
  else if d = 10 then 'a' else if d = 11 then 'b' else if d = 12 then 'c'
  else if d = 13 then 'd' else if d = 14 then 'e' else 'f'

/-- One byte of a bytes literal, escaped as CPython's `bytes.__repr__` does;
`qc` is the code of the chosen quote character. -/
def byteEscape (qc : Nat) (b : Nat) : List Char :=
  if b = 92 then [Char.ofNat 92, Char.ofNat 92]
  else if b = 9 then [Char.ofNat 92, 't']
  else if b = 10 then [Char.ofNat 92, 'n']
  else if b = 13 then [Char.ofNat 92, 'r']
  else if b = qc then [Char.ofNat 92, Char.ofNat qc]
  else if 32 ≤ b && b ≤ 126 then [Char.ofNat b]
  else [Char.ofNat 92, 'x', hexChar (b / 16 % 16), hexChar (b % 16)]

/-- `str(x)` (= `repr(x)`) for `bytes`: `b'...'`, using double quotes when
the bytes contain a single quote but no double quote. -/
def bytesRepr (bs : List Nat) : String :=
  let qc := if bs.contains 39 && !bs.contains 34 then 34 else 39
  String.mk ('b' :: Char.ofNat qc :: (bs.foldr (fun b acc => byteEscape qc b ++ acc) [Char.ofNat qc]))

/-- `repr` of a `str`: quoted with escaped backslash, quote and newline.
(CPython also escapes other control characters and picks double quotes when
the text contains a single quote; only the common escapes are modelled — the
module never round-trips these reprs.) -/
def strQuote (s : String) : String :=
  let esc := fun c =>
    if c = Char.ofNat 92 then [Char.ofNat 92, Char.ofNat 92]
    else if c = Char.ofNat 39 then [Char.ofNat 92, Char.ofNat 39]
    else if c = '\n' then [Char.ofNat 92, 'n']
    else [c]
  String.mk (Char.ofNat 39 :: (s.data.foldr (fun c acc => esc c ++ acc) [Char.ofNat 39]))

/-- `repr(v)`, fuelled for the nested `dict`/`list` cases; the fuel never
runs out when called through `pyRepr`.  For `obj` the unmodelled memory
address of CPython's default `repr` is omitted. -/
def pyReprFuel : Nat → PyValue → String
  | 0, _ => ""
  | fuel+1, v =>
    match v with
    | .str s => strQuote s
    | .int n => String.mk (intReprChars n)
    | .float r => r
    | .bytes bs => bytesRepr bs
    | .dict entries =>
      "\x7b" ++ String.intercalate ", "
        (entries.map fun p => pyReprFuel fuel p.1 ++ ": " ++ pyReprFuel fuel p.2) ++ "\x7d"
    | .list elems =>
      "[" ++ String.intercalate ", " (elems.map (pyReprFuel fuel)) ++ "]"
    | .bool b => if b then "True" else "False"
    | .none => "None"
    | .obj n => "<" ++ n ++ " object>"

mutual

/-- Fuel bound for `pyReprFuel`: strictly larger than the value's depth. -/
def pyDepth : PyValue → Nat
  | .dict entries => 1 + pyDepthPairs entries
  | .list elems => 1 + pyDepthList elems
  | _ => 1

/-- Depth bound over the entries of a `dict`. -/
def pyDepthPairs : List (PyValue × PyValue) → Nat
  | [] => 0
  | (k, v) :: rest => max (max (pyDepth k) (pyDepth v)) (pyDepthPairs rest)

/-- Depth bound over the elements of a `list`. -/
def pyDepthList : List PyValue → Nat
  | [] => 0
  | e :: rest => max (pyDepth e) (pyDepthList rest)

end

/-- `repr(v)`. -/
def pyRepr (v : PyValue) : String := pyReprFuel (pyDepth v) v

/-- `str(v)`: the identity on strings, `repr` otherwise. -/
def pyStr : PyValue → String
  | .str s => s
  | v => pyRepr v

/-- Python truthiness (`bool(v)`).  A float is falsy when its repr denotes
zero (`0.0`, `-0.0`, `0`, `-0`); arbitrary objects are truthy. -/
def pyTruthy : PyValue → Bool
  | .str s => s ≠ ""
  | .int n => n ≠ 0
  | .float r => !(r = "0.0" || r = "-0.0" || r = "0" || r = "-0")
  | .bytes bs => bs ≠ []
  | .dict entries => !entries.isEmpty
  | .list elems => !elems.isEmpty
  | .bool b => b
  | .none => false
  | .obj _ => true

/-! ### Calling a type object on a value

`_to_dataclass` and `_dataclass_field_to_dynamo_field` both evaluate the
Python expression `field_type(value)`; `callType` models it.  -/

/-- `int(v)`.  `int` of a float truncates toward zero; only the plain
decimal forms `digits` / `digits.digits` of the modelled float reprs are
truncated here (scientific notation and `inf`/`nan` reprs report errors
rather than CPython's wide-integer results — no verified claim evaluates
them). -/
def intOfFloatRepr (cs : List Char) : Except PyErr Int :=
  let (sign, body) := match cs with
    | '-' :: rest => (true, rest)
    | '+' :: rest => (false, rest)
    | rest => (false, rest)
  match body.span (fun c => (digitVal c).isSome) with
  | (intPart, rest) =>
    let fracOk := match rest with
      | [] => true
      | '.' :: frac => List.all frac fun c => (digitVal c).isSome
      | _ => false
    match intPart, fracOk, parseDigitsAcc 0 intPart with
    | _ :: _, true, some n => .ok (if sign then -(n : Int) else (n : Int))
    | _, _, _ => .error (.valueError ("cannot convert float " ++ String.mk cs))

/-- Interpret a value as an iterable of byte values, as `bytes(v)` does for
dicts (iterating keys) and lists. -/
def byteElems (elems : List PyValue) : Except PyErr (List Nat)  :=
  elems.foldr
    (fun e acc => do
      let rest ← acc
      match e with
      | .int n =>
        if 0 ≤ n && n < 256 then .ok (n.toNat :: rest)
        else .error (.valueError "bytes must be in range(0, 256)")
      | .bool b => .ok ((if b then 1 else 0) :: rest)
      | _ => .error (.typeError "an integer is required"))
    (.ok [])

/-- Interpret a list as the pair sequence `dict(iterable)` accepts; other
element shapes raise `TypeError`. -/
def dictPairs : List PyValue → Except PyErr (List (PyValue × PyValue))
  | [] => .ok []
  | .list [k, val] :: rest => do .ok ((k, val) :: (← dictPairs rest))
  | _ :: _ => .error (.typeError "cannot convert dictionary update sequence")

/-- `field_type(value)` — calling the declared type object on a value.
Calling the annotation object `None` raises
`TypeError: 'NoneType' object is not callable`; calling any class outside the
registry's key set is not modelled beyond raising `TypeError` (the module
only reaches `callType` for registry types and for `dict`-annotated decode
paths). -/
def callType : PyTypeKey → PyValue → Except PyErr PyValue
  | .str, v => .ok (.str (pyStr v))
  | .int, v =>
    match v with
    | .int n => .ok (.int n)
    | .bool b => .ok (.int (if b then 1 else 0))
    | .float r => do .ok (.int (← intOfFloatRepr r.data))
    | .str s =>
      match intParseChars (pyStripChars s.data) with
      | some n => .ok (.int n)
      | Option.none =>
        .error (.valueError ("invalid literal for int() with base 10: " ++ strQuote s))
    | _ => .error (.typeError "int() argument must be a string or a number")
  | .float, v =>
    match v with
    | .float r => .ok (.float r)
    | .int n => .ok (.float (String.mk (intReprChars n) ++ ".0"))
    | .bool b => .ok (.float (if b then "1.0" else "0.0"))
    | .str s => floatParseChars s.data
    | .bytes bs => floatParseChars (bs.map Char.ofNat)
    | _ => .error (.typeError "float() argument must be a string or a number")
  | .bytes, v =>
    match v with
    | .bytes bs => .ok (.bytes bs)
    | .int n =>
      if 0 ≤ n then .ok (.bytes (List.replicate n.toNat 0))
      else .error (.valueError "negative count")
    | .bool b => .ok (.bytes (List.replicate (if b then 1 else 0) 0))
    | .str _ => .error (.typeError "string argument without an encoding")
    | .dict entries => do .ok (.bytes (← byteElems (entries.map Prod.fst)))
    | .list elems => do .ok (.bytes (← byteElems elems))
    | _ => .error (.typeError "cannot convert to bytes")
  | .dict, v =>
    match v with
    | .dict entries => .ok (.dict entries)
    | .list elems => do .ok (.dict (← dictPairs elems))
    | _ => .error (.typeError "cannot convert to dict")
  | .bool, v => .ok (.bool (pyTruthy v))
  | .noneObj, _ => .error (.typeError "'NoneType' object is not callable")
  | .noneType, _ => .error (.typeError "NoneType takes no arguments")
  | .other n, _ => .error (.typeError ("call of unmodelled class " ++ n))

/-! ### `json.loads`

A fuelled recursive-descent JSON reader.  Modelling notes: `\u` escapes and
non-object/array top-level extensions are handled as errors where CPython
would succeed only on inputs no verified claim exercises; JSON reals are kept
as their literal text in a `PyValue.float`.  The fuel passed by `jsonLoads`
is large enough for any input of the given length. -/

/-- JSON string body: characters up to the closing quote, with the common
escapes. -/
def jsonString : Nat → List Char → Except PyErr (String × List Char)
  | 0, _ => .error (.valueError "json: fuel exhausted")
  | _, [] => .error (.valueError "Unterminated string")
  | fuel+1, c :: cs =>
    if c = '"' then .ok ("", cs)
    else if c = Char.ofNat 92 then
      match cs with
      | [] => .error (.valueError "Unterminated string")
      | e :: cs' => do
        let ec ← (match e with
          | '"' => .ok '"'
          | 'n' => .ok '\n'
          | 't' => .ok '\t'
          | 'r' => .ok '\r'
          | 'b' => .ok (Char.ofNat 8)
          | 'f' => .ok (Char.ofNat 12)
          | '/' => .ok '/'
          | e' =>
            if e' = Char.ofNat 92 then .ok (Char.ofNat 92)
            else .error (.valueError "Invalid or unmodelled escape") : Except PyErr Char)
        let (rest, after) ← jsonString fuel cs'
        .ok (String.mk (ec :: rest.data), after)
    else do
      let (rest, after) ← jsonString fuel cs
      .ok (String.mk (c :: rest.data), after)

/-- Characters a JSON number token may contain. -/
def isJsonNumChar (c : Char) : Bool :=
  (digitVal c).isSome || c = '-' || c = '+' || c = '.' || c = 'e' || c = 'E'

/-- A JSON number token: an integer when it parses as one, otherwise a float
literal. -/
def jsonNumber (tok : List Char) : Except PyErr PyValue :=
  match intParseChars tok with
  | some n => .ok (.int n)
  | Option.none =>
    if isFloatLitChars tok then .ok (.float (String.mk tok))
    else .error (.valueError ("Expecting value: " ++ String.mk tok))

mutual

/-- One JSON value; returns the remaining input. -/
def jsonVal : Nat → List Char → Except PyErr (PyValue × List Char)
  | 0, _ => .error (.valueError "json: fuel exhausted")
  | fuel+1, cs =>
    match cs.dropWhile isPySpace with
    | 'n' :: 'u' :: 'l' :: 'l' :: rest => .ok (.none, rest)
    | 't' :: 'r' :: 'u' :: 'e' :: rest => .ok (.bool true, rest)
    | 'f' :: 'a' :: 'l' :: 's' :: 'e' :: rest => .ok (.bool false, rest)
    | '"' :: rest => do
      let (s, after) ← jsonString (fuel+1) rest
      .ok (.str s, after)
    | '[' :: rest => jsonArray fuel rest
    | '{' :: rest => jsonObject fuel rest
    | rest =>
      match rest.span isJsonNumChar with
      | (tok@(_ :: _), after) => do .ok (← jsonNumber tok, after)
      | _ => .error (.valueError "Expecting value")

/-- The elements of a JSON array after `[`. -/
def jsonArray : Nat → List Char → Except PyErr (PyValue × List Char)
  | 0, _ => .error (.valueError "json: fuel exhausted")
  | fuel+1, cs =>
    match cs.dropWhile isPySpace with
    | ']' :: rest => .ok (.list [], rest)
    | cs' => do
      let (v, after) ← jsonVal fuel cs'
      let (elems, after') ← jsonArrayTail fuel after
      .ok (.list (v :: elems), after')

/-- `, value`* `]` after a first array element. -/
def jsonArrayTail : Nat → List Char → Except PyErr (List PyValue × List Char)
  | 0, _ => .error (.valueError "json: fuel exhausted")
  | fuel+1, cs =>
    match cs.dropWhile isPySpace with
    | ']' :: rest => .ok ([], rest)
    | ',' :: rest => do
      let (v, after) ← jsonVal fuel rest
      let (elems, after') ← jsonArrayTail fuel after
      .ok (v :: elems, after')
    | _ => .error (.valueError "Expecting ',' delimiter")

/-- The members of a JSON object after `{`. -/
def jsonObject : Nat → List Char → Except PyErr (PyValue × List Char)
  | 0, _ => .error (.valueError "json: fuel exhausted")
  | fuel+1, cs =>
    match cs.dropWhile isPySpace with
    | '}' :: rest => .ok (.dict [], rest)
    | cs' => do
      let (kv, after) ← jsonMember fuel cs'
      let (entries, after') ← jsonObjectTail fuel after
      .ok (.dict (kv :: entries), after')

/-- `, member`* `}` after a first object member. -/
def jsonObjectTail : Nat → List Char → Except PyErr (List (PyValue × PyValue) × List Char)
  | 0, _ => .error (.valueError "json: fuel exhausted")
  | fuel+1, cs =>
    match cs.dropWhile isPySpace with
    | '}' :: rest => .ok ([], rest)
    | ',' :: rest => do
      let (kv, after) ← jsonMember fuel rest
      let (entries, after') ← jsonObjectTail fuel after
      .ok (kv :: entries, after')
    | _ => .error (.valueError "Expecting ',' delimiter")

/-- One `"key": value` member. -/
def jsonMember : Nat → List Char → Except PyErr ((PyValue × PyValue) × List Char)
  | 0, _ => .error (.valueError "json: fuel exhausted")
  | fuel+1, cs =>
    match cs.dropWhile isPySpace with
    | '"' :: rest => do
      let (k, after) ← jsonString (fuel+1) rest
      match after.dropWhile isPySpace with
      | ':' :: after' => do
        let (v, after'') ← jsonVal fuel after'
        .ok ((.str k, v), after'')
      | _ => .error (.valueError "Expecting ':' delimiter")
    | _ => .error (.valueError "Expecting property name")

end

/-- `json.loads(s)` for a string: parse one value and require only
whitespace after it. -/
def jsonParse (s : String) : Except PyErr PyValue := do
  let (v, rest) ← jsonVal (2 * s.length + 4) s.data
  if rest.dropWhile isPySpace = [] then .ok v
  else .error (.valueError "Extra data")

/-- `json.loads(x)` as `_to_dataclass` calls it: parses `str` (and ASCII
`bytes`) input, and raises `TypeError` on every other value — in particular
on the native `dict` that `_to_dynamo` stores for a Map field. -/
def jsonLoads : PyValue → Except PyErr PyValue
  | .str s => jsonParse s
  | .bytes bs => jsonParse (String.mk (bs.map Char.ofNat))
  | _ => .error (.typeError "the JSON object must be str, bytes or bytearray")

/-! ### The module proper -/

/-- One `TYPE_MAPPING` entry: the wire tag key and the encode function. -/
structure TagEntry where
  key : String
  fn : PyValue → PyValue

/-- The module-level registry

```python
TYPE_MAPPING = {
    str: {"key": "S", "fn": lambda x: str(x)},
    float: {"key": "N", "fn": lambda x: str(x)},
    int: {"key": "N", "fn": lambda x: str(x)},
    bytes: {"key": "B", "fn": lambda x: str(x)},
    dict: {"key": "M", "fn": lambda x: x},
    bool: {"key": "BOOL", "fn": lambda x: x},
    None: {"key": "NULL", "fn": lambda x: x},
}
```

as a partial lookup; `Option.none` models `KeyError`.  The last key is the
object `None`, so a lookup with `type(None)` (that is, `NoneType`) misses. -/
def TYPE_MAPPING : PyTypeKey → Option TagEntry
  | .str => some ⟨"S", fun x => .str (pyStr x)⟩
  | .float => some ⟨"N", fun x => .str (pyStr x)⟩
  | .int => some ⟨"N", fun x => .str (pyStr x)⟩
  | .bytes => some ⟨"B", fun x => .str (pyStr x)⟩
  | .dict => some ⟨"M", fun x => x⟩
  | .bool => some ⟨"BOOL", fun x => x⟩
  | .noneObj => some ⟨"NULL", fun x => x⟩
  | .noneType => Option.none
  | .other _ => Option.none

/-- A dataclass field as stored in `__dataclass_fields__`: its name and its
raw annotation (`.type`). -/
structure FieldDecl where
  name : String
  type : PyTypeKey
  deriving DecidableEq, Repr

/-- The `__dynamoclass_params__` dict attached by `_process_class`. -/
structure DCParams where
  tableName : String
  partitionKeyName : String
  sortKeyName : Option String
  deriving DecidableEq, Repr

/-- The inner tagged dict `{wire_key: value}` of a wire item entry, as an
insertion-ordered association list (a faithful dict always has one entry). -/
abbrev TaggedValue := List (String × PyValue)

/-- A DynamoDB item `{field_name: {wire_key: value}}`. -/
abbrev WireItem := List (String × TaggedValue)

/-- The key-validation and parameter-recording part of `_process_class`
(lines 27–43): after `dataclass(cls)` computes the field set, check the
partition key name (the decorator's default is `None`, modelled as
`Option.none`, which fails the membership test exactly as in Python), check
the sort key name when it is not `None`, and record the three parameters.
Client construction is a collaborator concern and is not modelled. -/
def processClass (fieldNames : List String) (tableName : String)
    (partitionKeyName : Option String) (sortKeyName : Option String) :
    Except PyErr DCParams :=
  match partitionKeyName with
  | Option.none =>
    .error (.exceptionError "Partition Key Name \"None\" not found in class fields")
  | some pk =>
    if pk ∉ fieldNames then
      .error (.exceptionError
        ("Partition Key Name \"" ++ pk ++ "\" not found in class fields"))
    else
      match sortKeyName with
      | some sk =>
        if sk ∉ fieldNames then
          .error (.exceptionError
            ("Sort Key Name \"" ++ sk ++ "\" not found in class fields"))
        else .ok ⟨tableName, pk, some sk⟩
      | Option.none => .ok ⟨tableName, pk, Option.none⟩

/-- `_to_dynamo(self)` over the `asdict` association list:

```python
return {
    k: {TYPE_MAPPING[type(v)]["key"]: TYPE_MAPPING[type(v)]["fn"](v)}
    for k, v in asdict(self).items()
}
```

The comprehension raises `KeyError` at the first value whose runtime type is
not a registry key. -/
def toDynamo : List (String × PyValue) → Except PyErr WireItem
  | [] => .ok []
  | (k, v) :: rest =>
    match TYPE_MAPPING (typeOf v) with
    | Option.none => .error (.keyError (typeKeyName (typeOf v)))
    | some entry =>
      match toDynamo rest with
      | .ok tail => .ok ((k, [(entry.key, entry.fn v)]) :: tail)
      | .error e => .error e

/-- A dataclass instance of a given field list: its field values in
declaration order.  `asdict` pairs them with the field names. -/
def asdict (decls : List FieldDecl) (values : List PyValue) :
    List (String × PyValue) :=
  List.zip (decls.map FieldDecl.name) values

/-- `encode` of a record instance: `asdict` then `_to_dynamo`. -/
def encodeRecord (decls : List FieldDecl) (values : List PyValue) :
    Except PyErr WireItem :=
  toDynamo (asdict decls values)

/-- `__dataclass_fields__[name]` — first declaration with the given name
(dataclass field names are unique, so "first" is exact). -/
def findField (decls : List FieldDecl) (name : String) : Option FieldDecl :=
  decls.find? (fun d => d.name == name)

/-- Assignment `kwargs[k] = v` on an association-list model of a dict:
replace in place or append. -/
def kwInsert : List (String × PyValue) → String → PyValue → List (String × PyValue)
  | [], k, v => [(k, v)]
  | (k', v') :: rest, k, v =>
    if k' == k then (k', v) :: rest else (k', v') :: kwInsert rest k v

/-- Dict lookup on the association-list model. -/
def lookupKw : List (String × PyValue) → String → Option PyValue
  | [], _ => Option.none
  | (k', v') :: rest, k => if k' == k then some v' else lookupKw rest k

/-- The loop body of `_to_dataclass` (lines 63–79), accumulating `kwargs`:

```python
for field_name, value in dynamodb_item.items():
    if field_name not in cls.__dataclass_fields__:
        raise ValueError(...)
    field_value = list(value.values())[0]
    if cls.__dataclass_fields__[field_name].type == dict:
        field_value = json.loads(field_value)
    kwargs[field_name] = cls.__dataclass_fields__[field_name].type(field_value)
```

`list(value.values())[0]` on an empty tagged dict raises `IndexError`. -/
def toDataclassAux (decls : List FieldDecl) :
    WireItem → List (String × PyValue) → Except PyErr (List (String × PyValue))
  | [], kwargs => .ok kwargs
  | (fieldName, value) :: rest, kwargs =>
    match findField decls fieldName with
    | Option.none =>
      .error (.valueError
        ("Cannot render field with name " ++ fieldName ++
          "! No such field name found!"))
    | some fd =>
      match (value.map Prod.snd).head? with
      | Option.none => .error (.indexError "list index out of range")
      | some fieldValue0 =>
        match (if fd.type = PyTypeKey.dict
            then jsonLoads fieldValue0 else .ok fieldValue0) with
        | .error e => .error e
        | .ok fieldValue =>
          match callType fd.type fieldValue with
          | .error e => .error e
          | .ok coerced =>
            toDataclassAux decls rest (kwInsert kwargs fieldName coerced)

/-- `_to_dataclass(cls, dynamodb_item)`: the kwargs dict it returns. -/
def toDataclass (decls : List FieldDecl) (item : WireItem) :
    Except PyErr (List (String × PyValue)) :=
  toDataclassAux decls item []

/-- `cls(**kwargs)`: a keyword argument not naming a field, or a missing
field, raises `TypeError` (modelled without default field values, which the
module never declares).  Returns the instance's values in declaration
order. -/
def construct (decls : List FieldDecl) (kwargs : List (String × PyValue)) :
    Except PyErr (List PyValue) :=
  if kwargs.all (fun kv => (findField decls kv.1).isSome) then
    decls.mapM (fun d =>
      match lookupKw kwargs d.name with
      | some v => .ok v
      | Option.none =>
        .error (.typeError ("missing required argument: " ++ d.name)))
  else .error (.typeError "unexpected keyword argument")

/-- `cls(**cls._to_dataclass(item))` — decode a wire item into a record
instance, as `get` and `query` do. -/
def decodeRecord (decls : List FieldDecl) (item : WireItem) :
    Except PyErr (List PyValue) :=
  match toDataclass decls item with
  | .error e => .error e
  | .ok kwargs => construct decls kwargs

/-- `_dataclass_field_to_dynamo_field(cls, field_name, value)` (lines
81–95):

```python
if field_name not in cls.__dataclass_fields__:
    raise ValueError(...)
field_type = cls.__dataclass_fields__[field_name].type
mapping = TYPE_MAPPING[field_type]
dynamo_type = mapping["key"]
dynamo_value = mapping["fn"](field_type(value))
return {dynamo_type: dynamo_value}
```
-/
def dcFieldToDynamoField (decls : List FieldDecl) (fieldName : String)
    (value : PyValue) : Except PyErr TaggedValue :=
  match findField decls fieldName with
  | Option.none =>
    .error (.valueError
      ("Cannot render field with name " ++ fieldName ++
        "! No such field name found!"))
  | some fd =>
    match TYPE_MAPPING fd.type with
    | Option.none => .error (.keyError (typeKeyName fd.type))
    | some mapping =>
      match callType fd.type value with
      | .error e => .error e
      | .ok coerced => .ok [(mapping.key, mapping.fn coerced)]

/-- Assignment `key[k] = v` on the association-list model of the key dict:
replace in place or append, exactly like `kwInsert` but at the key-dict's
value type. -/
def wireInsert : WireItem → String → TaggedValue → WireItem
  | [], k, v => [(k, v)]
  | (k', v') :: rest, k, v =>
    if k' == k then (k', v) :: rest else (k', v') :: wireInsert rest k v

/-- The key construction inside `get` (lines 101–111): the dict
`{partition_key_name: ...}`, into which the sort key entry is assigned
(`key[sort_key_name] = ...`) exactly when `sort_key_name` is not `None`.
When `sort_key_name` equals `partition_key_name` the assignment overwrites
the partition entry, leaving a one-entry dict. -/
def buildKey (decls : List FieldDecl) (partitionKeyName : String)
    (sortKeyName : Option String) (partitionKey sortKey : PyValue) :
    Except PyErr WireItem :=
  match dcFieldToDynamoField decls partitionKeyName partitionKey with
  | .error e => .error e
  | .ok pkEntry =>
    match sortKeyName with
    | Option.none => .ok [(partitionKeyName, pkEntry)]
    | some sk =>
      match dcFieldToDynamoField decls sk sortKey with
      | .error e => .error e
      | .ok skEntry => .ok (wireInsert [(partitionKeyName, pkEntry)] sk skEntry)

/-- `get(cls, *, partition_key, sort_key)` (lines 97–119).  Both parameters
are keyword-only with no default in the source, so every call supplies both;
the storage client's `get_item` is the function argument `clientGetItem`,
returning `Option.none` when the response carries no `"Item"`. -/
def get (decls : List FieldDecl) (params : DCParams)
    (clientGetItem : String → WireItem → Option WireItem)
    (partitionKey sortKey : PyValue) : Except PyErr (List PyValue) :=
  match buildKey decls params.partitionKeyName params.sortKeyName
      partitionKey sortKey with
  | .error e => .error e
  | .ok key =>
    match clientGetItem params.tableName key with
    | Option.none =>
      .error (.itemNotFound
        ("Item not found for " ++ params.partitionKeyName ++ "=" ++
          pyStr partitionKey ++ " in " ++ params.tableName))
    | some item => decodeRecord decls item

/-- `save(self)` (lines 57–61): `_to_dynamo`, then `put_item`; the client's
acknowledgment is returned as-is. -/
def save (decls : List FieldDecl) (params : DCParams)
    (clientPutItem : String → WireItem → PyValue)
    (values : List PyValue) : Except PyErr PyValue :=
  match encodeRecord decls values with
  | .error e => .error e
  | .ok wire => .ok (clientPutItem params.tableName wire)

/-- The keyword arguments `query` passes to the client's `query` call. -/
structure QueryRequest where
  tableName : String
  keyConditionExpression : String
  expressionAttributeValues : List (String × TaggedValue)
  indexName : Option String

/-- `query(cls, *, partition_key, index=None)` (lines 121–142):

```python
partition_key_type = TYPE_MAPPING[cls.__dataclass_fields__[partition_key_name].type]["key"]
items = cls.__dynamoclass_client__.query(
    TableName=table_name,
    KeyConditionExpression=f"{partition_key_name} = :val",
    ExpressionAttributeValues={":val": {partition_key_type: str(partition_key)}},
    **extra_kwargs)
return [cls(**cls._to_dataclass(item)) for item in items["Items"]]
```

The source also reads `sort_key_name` into a local it never uses, and adds
`IndexName` only when `index` is truthy (so the empty string, like `None`,
is dropped). -/
def query (decls : List FieldDecl) (params : DCParams)
    (clientQuery : QueryRequest → List WireItem)
    (partitionKey : PyValue) (index : Option String) :
    Except PyErr (List (List PyValue)) :=
  let _sortKeyName := params.sortKeyName
  let extraIndex : Option String := match index with
    | some s => if s == "" then Option.none else some s
    | Option.none => Option.none
  match findField decls params.partitionKeyName with
  | Option.none => .error (.keyError params.partitionKeyName)
  | some fd =>
    match TYPE_MAPPING fd.type with
    | Option.none => .error (.keyError (typeKeyName fd.type))
    | some mapping =>
      let req : QueryRequest :=
        { tableName := params.tableName
          keyConditionExpression := params.partitionKeyName ++ " = :val"
          expressionAttributeValues :=
            [(":val", [(mapping.key, .str (pyStr partitionKey))])]
          indexName := extraIndex }
      (clientQuery req).mapM (decodeRecord decls)

/-! ### Supporting lemmas: decimal round trip -/

/-- Little-endian numeric value of a digit character list. -/
def valRev : List Char → Nat
  | [] => 0
  | c :: cs => (digitVal c).getD 0 + 10 * valRev cs

theorem digitVal_digitChar {d : Nat} (hd : d < 10) :
    digitVal (digitChar d) = some d := by
  interval_cases d <;> rfl

theorem digitVal_isSome_of_digitChar {d : Nat} (hd : d < 10) :
    (digitVal (digitChar d)).isSome := by
  rw [digitVal_digitChar hd]; rfl

theorem natReprAux_digits :
    ∀ fuel n c, c ∈ natReprAux fuel n → (digitVal c).isSome := by
  intro fuel
  induction fuel with
  | zero => intro n c hc; simp [natReprAux] at hc
  | succ f ih =>
    intro n c hc
    by_cases hn : n = 0
    · simp [natReprAux, hn] at hc
    · rw [natReprAux, if_neg hn] at hc
      rcases List.mem_cons.mp hc with h | h
      · subst h
        exact digitVal_isSome_of_digitChar (Nat.mod_lt _ (by norm_num))
      · exact ih _ _ h

theorem valRev_natReprAux : ∀ fuel n, n ≤ fuel → valRev (natReprAux fuel n) = n := by
  intro fuel
  induction fuel with
  | zero => intro n hn; interval_cases n; rfl
  | succ f ih =>
    intro n hn
    by_cases hn0 : n = 0
    · subst hn0; rfl
    · rw [natReprAux, if_neg hn0, valRev,
        digitVal_digitChar (Nat.mod_lt _ (by norm_num)), Option.getD_some,
        ih (n / 10) ?_]
      · exact Nat.mod_add_div n 10
      · have := Nat.div_lt_self (Nat.pos_of_ne_zero hn0) (by norm_num : 1 < 10)
        omega

theorem parseDigitsAcc_of_digits :
    ∀ (cs : List Char) (acc : Nat), (∀ c ∈ cs, (digitVal c).isSome) →
      parseDigitsAcc acc cs =
        some (cs.foldl (fun a c => a * 10 + (digitVal c).getD 0) acc) := by
  intro cs
  induction cs with
  | nil => intro acc _; rfl
  | cons c cs' ih =>
    intro acc h
    obtain ⟨d, hd⟩ := Option.isSome_iff_exists.mp (h c (List.mem_cons_self c cs'))
    simp only [parseDigitsAcc, hd, List.foldl_cons, Option.getD_some]
    exact ih _ (fun c' hc' => h c' (List.mem_cons_of_mem _ hc'))

theorem foldl_reverse_valRev :
    ∀ (cs : List Char) (acc : Nat),
      cs.reverse.foldl (fun a c => a * 10 + (digitVal c).getD 0) acc =
        acc * 10 ^ cs.length + valRev cs := by
  intro cs
  induction cs with
  | nil => intro acc; simp [valRev]
  | cons c cs' ih =>
    intro acc
    rw [List.reverse_cons, List.foldl_append, ih acc]
    simp only [List.foldl_cons, List.foldl_nil, valRev, List.length_cons]
    ring

theorem parse_natReprChars (n : Nat) : parseDigitsAcc 0 (natReprChars n) = some n := by
  by_cases hn : n = 0
  · subst hn; rfl
  · rw [natReprChars, if_neg hn,
      parseDigitsAcc_of_digits _ _
        (fun c hc => natReprAux_digits n n c (List.mem_reverse.mp hc)),
      foldl_reverse_valRev, valRev_natReprAux n n le_rfl]
    simp

theorem natReprChars_digits {n : Nat} {c : Char} (hc : c ∈ natReprChars n) :
    (digitVal c).isSome := by
  by_cases hn : n = 0
  · subst hn
    rw [show natReprChars 0 = ['0'] from rfl, List.mem_singleton] at hc
    rw [hc]; rfl
  · rw [natReprChars, if_neg hn] at hc
    exact natReprAux_digits n n c (List.mem_reverse.mp hc)

theorem natReprChars_ne_nil (n : Nat) : natReprChars n ≠ [] := by
  by_cases hn : n = 0
  · subst hn; simp [natReprChars]
  · rw [natReprChars, if_neg hn]
    intro h
    rw [List.reverse_eq_nil_iff] at h
    have : valRev (natReprAux n n) = n := valRev_natReprAux n n le_rfl
    rw [h] at this
    exact hn this.symm

theorem digitVal_ne_minus {c : Char} (hc : (digitVal c).isSome) : c ≠ '-' := by
  intro h
  rw [h] at hc
  exact absurd hc (by decide)

theorem intParseChars_minus (rest : List Char) :
    intParseChars ('-' :: rest) =
      if rest.isEmpty then Option.none
      else
        match parseDigitsAcc 0 rest with
        | some m => some (-(m : Int))
        | Option.none => Option.none := rfl

theorem intParseChars_cons_ne {c : Char} (rest : List Char) (hc : c ≠ '-') :
    intParseChars (c :: rest) =
      match parseDigitsAcc 0 (c :: rest) with
      | some m => some ((m : Int))
      | Option.none => Option.none := by
  show (if c = '-' then
      if rest.isEmpty then Option.none
      else
        match parseDigitsAcc 0 rest with
        | some m => some (-(m : Int))
        | Option.none => Option.none
    else
      match parseDigitsAcc 0 (c :: rest) with
      | some m => some ((m : Int))
      | Option.none => Option.none) = _
  rw [if_neg hc]

theorem intParse_intRepr (n : Int) : intParseChars (intReprChars n) = some n := by
  by_cases hneg : n < 0
  · obtain ⟨c, cs, hcons⟩ :=
      List.exists_cons_of_ne_nil (natReprChars_ne_nil n.natAbs)
    have hemp : (natReprChars n.natAbs).isEmpty = false := by
      rw [hcons]; rfl
    rw [intReprChars, if_pos hneg, intParseChars_minus, hemp, parse_natReprChars]
    show some (-(n.natAbs : Int)) = some n
    congr 1
    omega
  · rw [intReprChars, if_neg hneg]
    obtain ⟨c, cs, hcons⟩ := List.exists_cons_of_ne_nil (natReprChars_ne_nil n.natAbs)
    have hdig : (digitVal c).isSome :=
      natReprChars_digits (by rw [hcons]; exact List.mem_cons_self c cs)
    rw [hcons, intParseChars_cons_ne cs (digitVal_ne_minus hdig), ← hcons,
      parse_natReprChars]
    show some ((n.natAbs : Int)) = some n
    congr 1
    omega

/-! ### Supporting lemmas: whitespace stripping -/

theorem dropWhile_eq_self_of {l : List Char}
    (h : ∀ c ∈ l, isPySpace c = false) : l.dropWhile isPySpace = l := by
  cases l with
  | nil => rfl
  | cons c cs =>
    rw [List.dropWhile_cons, h c (List.mem_cons_self c cs)]
    simp

theorem pyStrip_noop {l : List Char} (h : ∀ c ∈ l, isPySpace c = false) :
    pyStripChars l = l := by
  unfold pyStripChars
  rw [dropWhile_eq_self_of h,
    dropWhile_eq_self_of (fun c hc => h c (List.mem_reverse.mp hc)),
    List.reverse_reverse]

theorem digit_not_space {c : Char} (h : (digitVal c).isSome) :
    isPySpace c = false := by
  by_contra hs
  have ht : isPySpace c = true := by
    cases hx : isPySpace c
    · exact absurd hx hs
    · rfl
  have hc := by simpa [isPySpace] using ht
  rcases hc with ((h1 | h1) | h1) | h1 <;> (rw [h1] at h; exact absurd h (by decide))

theorem intReprChars_not_space {n : Int} {c : Char} (hc : c ∈ intReprChars n) :
    isPySpace c = false := by
  rw [intReprChars] at hc
  by_cases hneg : n < 0
  · rw [if_pos hneg] at hc
    rcases List.mem_cons.mp hc with h | h
    · rw [h]; rfl
    · exact digit_not_space (natReprChars_digits h)
  · rw [if_neg hneg] at hc
    exact digit_not_space (natReprChars_digits hc)

/-! ### Supporting lemmas: the encoded form of a record -/

/-- The `{wire_key: encoded_value}` pair `_to_dynamo` produces for a value of
each supported runtime type, spelled out. -/
def encPair : PyValue → String × PyValue
  | .str s => ("S", .str s)
  | .int n => ("N", .str (String.mk (intReprChars n)))
  | .float r => ("N", .str r)
  | .bytes bs => ("B", .str (bytesRepr bs))
  | .dict entries => ("M", .dict entries)
  | .bool b => ("BOOL", .bool b)
  | v => ("", v)

/-- A string that is the CPython `repr` of some float: a float literal with
no surrounding whitespace (so `float()` maps it back to itself). -/
def isCanonicalFloatRepr (s : String) : Bool :=
  isFloatLitChars s.data && (pyStripChars s.data == s.data)

/-- Field/value pairs whose declared type matches the value and for which
`decode ∘ encode` is the identity: String, Number (int or float with a
canonical repr) and Bool fields. -/
def roundTripOK (fd : FieldDecl) (v : PyValue) : Bool :=
  match fd.type, v with
  | .str, .str _ => true
  | .int, .int _ => true
  | .float, .float r => isCanonicalFloatRepr r
  | .bool, .bool _ => true
  | _, _ => false

theorem string_mk_data (s : String) : String.mk s.data = s := rfl

theorem roundTripOK_supported {fd : FieldDecl} {v : PyValue}
    (h : roundTripOK fd v = true) : (TYPE_MAPPING (typeOf v)).isSome = true := by
  obtain ⟨nm, ty⟩ := fd
  cases ty <;> cases v <;>
    first
    | exact absurd (show false = true from h) (by decide)
    | rfl

theorem roundTripOK_ne_dict {fd : FieldDecl} {v : PyValue}
    (h : roundTripOK fd v = true) : fd.type ≠ PyTypeKey.dict := by
  obtain ⟨nm, ty⟩ := fd
  cases ty <;> cases v <;>
    first
    | exact absurd (show false = true from h) (by decide)
    | exact fun hcontra => PyTypeKey.noConfusion hcontra

theorem callType_encPair {fd : FieldDecl} {v : PyValue}
    (h : roundTripOK fd v = true) : callType fd.type (encPair v).2 = .ok v := by
  obtain ⟨nm, ty⟩ := fd
  cases ty <;> cases v <;>
    first
    | exact absurd (show false = true from h) (by decide)
    | skip
  case str.str s => rfl
  case int.int n =>
    show (match intParseChars (pyStripChars (String.mk (intReprChars n)).data) with
      | some m => Except.ok (PyValue.int m)
      | Option.none => Except.error (PyErr.valueError
          ("invalid literal for int() with base 10: " ++
            strQuote (String.mk (intReprChars n))))) = Except.ok (PyValue.int n)
    rw [show (String.mk (intReprChars n)).data = intReprChars n from rfl,
      pyStrip_noop (fun c hc => intReprChars_not_space hc), intParse_intRepr]
  case float.float r =>
    replace h : isCanonicalFloatRepr r = true := h
    rw [isCanonicalFloatRepr, Bool.and_eq_true, beq_iff_eq] at h
    obtain ⟨hlit, hstrip⟩ := h
    show floatParseChars (String.mk r.data).data = Except.ok (PyValue.float r)
    rw [show (String.mk r.data).data = r.data from rfl, floatParseChars, hstrip,
      if_pos hlit, string_mk_data]
  case bool.bool b => rfl

/-- `_to_dynamo` on an association list of supported runtime values: the
claimed fixed mapping, entry by entry. -/
theorem toDynamo_supported :
    ∀ inst : List (String × PyValue),
      (inst.all fun kv => (TYPE_MAPPING (typeOf kv.2)).isSome) = true →
      toDynamo inst = .ok (inst.map fun kv => (kv.1, [encPair kv.2])) := by
  intro inst
  induction inst with
  | nil => intro _; rfl
  | cons kv rest ih =>
    intro h
    obtain ⟨k, v⟩ := kv
    rw [List.all_cons, Bool.and_eq_true] at h
    have hrest := ih h.2
    cases v <;> first
      | (rw [toDynamo, hrest]; rfl)
      | exact absurd h.1 (by simp [typeOf, TYPE_MAPPING])

/-! ### Supporting lemmas: field lookup and kwargs -/

theorem asdict_cons (d : FieldDecl) (ds : List FieldDecl) (v : PyValue)
    (vs : List PyValue) :
    asdict (d :: ds) (v :: vs) = (d.name, v) :: asdict ds vs := rfl

theorem asdict_def (ds : List FieldDecl) (vs : List PyValue) :
    asdict ds vs = List.zipWith Prod.mk (ds.map FieldDecl.name) vs := rfl

theorem findField_eq_none {decls : List FieldDecl} {name : String}
    (h : name ∉ decls.map FieldDecl.name) : findField decls name = Option.none := by
  rw [findField, List.find?_eq_none]
  intro d hd hbeq
  exact h (List.mem_map.mpr ⟨d, hd, beq_iff_eq.mp hbeq⟩)

theorem findField_self {decls : List FieldDecl}
    (hnd : (decls.map FieldDecl.name).Nodup) {d : FieldDecl} (hd : d ∈ decls) :
    findField decls d.name = some d := by
  induction decls with
  | nil => cases hd
  | cons e rest ih =>
    rw [List.map_cons, List.nodup_cons] at hnd
    rcases List.mem_cons.mp hd with rfl | hmem
    · exact List.find?_cons_of_pos _ (by simp)
    · have hne : e.name ≠ d.name :=
        fun hEq => hnd.1 (hEq ▸ List.mem_map.mpr ⟨d, hmem, rfl⟩)
      rw [findField, List.find?_cons_of_neg _ (by simp [hne])]
      exact ih hnd.2 hmem

theorem kwInsert_append {kwargs : List (String × PyValue)} {k : String}
    (v : PyValue) (h : ∀ kv ∈ kwargs, kv.1 ≠ k) :
    kwInsert kwargs k v = kwargs ++ [(k, v)] := by
  induction kwargs with
  | nil => rfl
  | cons kv rest ih =>
    obtain ⟨k', v'⟩ := kv
    have hne : k' ≠ k := h (k', v') (List.mem_cons_self _ _)
    rw [kwInsert, if_neg (by simpa using hne),
      ih (fun kv hkv => h kv (List.mem_cons_of_mem _ hkv)), List.cons_append]

theorem lookupKw_append_of_ne {pre : List (String × PyValue)} {k : String}
    (h : ∀ kv ∈ pre, kv.1 ≠ k) (rest : List (String × PyValue)) :
    lookupKw (pre ++ rest) k = lookupKw rest k := by
  induction pre with
  | nil => rfl
  | cons kv pre' ih =>
    obtain ⟨k', v'⟩ := kv
    rw [List.cons_append, lookupKw,
      if_neg (by simpa using h (k', v') (List.mem_cons_self _ _))]
    exact ih (fun kv hkv => h kv (List.mem_cons_of_mem _ hkv))

theorem mapM_lookup (kwargs : List (String × PyValue)) :
    ∀ (ds : List FieldDecl) (vs : List PyValue),
      List.Forall₂
        (fun (d : FieldDecl) (v : PyValue) => lookupKw kwargs d.name = some v)
        ds vs →
      (ds.mapM fun d =>
        (match lookupKw kwargs d.name with
          | some v => Except.ok v
          | Option.none =>
            Except.error (PyErr.typeError ("missing required argument: " ++ d.name)) :
          Except PyErr PyValue)) = .ok vs := by
  intro ds vs hf
  induction hf with
  | nil => rfl
  | @cons d v ds' vs' h₁ h₂ ih =>
    rw [List.mapM_cons, h₁, ih]
    rfl

theorem forall₂_lookup_asdict :
    ∀ (ds : List FieldDecl) (vs : List PyValue) (pre : List (String × PyValue)),
      (∀ d ∈ ds, ∀ kv ∈ pre, kv.1 ≠ d.name) →
      (ds.map FieldDecl.name).Nodup → ds.length = vs.length →
      List.Forall₂ (fun d v => lookupKw (pre ++ asdict ds vs) d.name = some v) ds vs := by
  intro ds
  induction ds with
  | nil =>
    intro vs pre _ _ hlen
    cases vs with
    | nil => exact List.Forall₂.nil
    | cons _ _ => simp at hlen
  | cons d ds' ih =>
    intro vs pre hpre hnd hlen
    cases vs with
    | nil => simp at hlen
    | cons v vs' =>
      rw [List.map_cons, List.nodup_cons] at hnd
      refine List.Forall₂.cons ?_ ?_
      · rw [asdict_cons,
          lookupKw_append_of_ne (fun kv hkv => hpre d (List.mem_cons_self _ _) kv hkv),
          lookupKw, if_pos (by simp)]
      · have h2 := ih vs' (pre ++ [(d.name, v)])
          (by
            intro d' hd' kv hkv
            rcases List.mem_append.mp hkv with hx | hx
            · exact hpre d' (List.mem_cons_of_mem _ hd') kv hx
            · rw [List.mem_singleton.mp hx]
              intro hEq
              apply hnd.1
              rw [show d.name = d'.name from hEq]
              exact List.mem_map.mpr ⟨d', hd', rfl⟩)
          hnd.2 (by simpa using hlen)
        rw [asdict_cons]
        simpa [List.append_assoc] using h2

theorem construct_asdict (decls : List FieldDecl) (values : List PyValue)
    (hnd : (decls.map FieldDecl.name).Nodup) (hlen : decls.length = values.length) :
    construct decls (asdict decls values) = .ok values := by
  rw [construct, if_pos ?_]
  · exact mapM_lookup _ decls values
      (forall₂_lookup_asdict decls values [] (by simp) hnd hlen)
  · rw [List.all_eq_true]
    intro kv hkv
    obtain ⟨a, b⟩ := kv
    have h1 : a ∈ decls.map FieldDecl.name := (List.of_mem_zip hkv).1
    obtain ⟨d, hd, hdn⟩ := List.mem_map.mp h1
    rw [show (a, b).1 = a from rfl, findField, List.find?_isSome]
    exact ⟨d, hd, by simp [hdn]⟩

/-- Decoding the encoded form of a round-trippable field list rebuilds
exactly the original kwargs, whatever prefix has been accumulated. -/
theorem toDataclassAux_encoded (decls : List FieldDecl) :
    ∀ (ds : List FieldDecl) (vs : List PyValue) (kwargs : List (String × PyValue)),
      List.Forall₂
        (fun d v => roundTripOK d v = true ∧ findField decls d.name = some d) ds vs →
      (∀ d ∈ ds, ∀ kv ∈ kwargs, kv.1 ≠ d.name) →
      (ds.map FieldDecl.name).Nodup →
      toDataclassAux decls ((asdict ds vs).map fun kv => (kv.1, [encPair kv.2])) kwargs =
        .ok (kwargs ++ asdict ds vs) := by
  intro ds vs kwargs hf
  induction hf generalizing kwargs with
  | nil =>
    intro _ _
    show Except.ok kwargs = Except.ok (kwargs ++ [])
    rw [List.append_nil]
  | @cons d v ds' vs' h₁ h₂ ih =>
    intro hdis hnd
    rw [List.map_cons, List.nodup_cons] at hnd
    obtain ⟨hrt, hfind⟩ := h₁
    simp only [asdict_cons, List.map_cons, toDataclassAux, hfind, List.map_nil,
      List.head?_cons, if_neg (roundTripOK_ne_dict hrt), callType_encPair hrt,
      kwInsert_append v (hdis d (List.mem_cons_self _ _))]
    rw [← asdict_def ds' vs', ih (kwargs ++ [(d.name, v)])
      (by
        intro d' hd' kv hkv
        rcases List.mem_append.mp hkv with hx | hx
        · exact hdis d' (List.mem_cons_of_mem _ hd') kv hx
        · rw [List.mem_singleton.mp hx]
          intro hEq
          apply hnd.1
          rw [show d.name = d'.name from hEq]
          exact List.mem_map.mpr ⟨d', hd', rfl⟩)
      hnd.2]
    simp [List.append_assoc]

/-! ## Claim theorems -/

/-- C3: registering a record type fails with `InvalidKeyFieldError` (the bare
`Exception` of `_process_class`) whenever the supplied partition key name is
not a declared field name, likewise when the sort key name is non-null and
undeclared, and on success the stored `__dynamoclass_params__` record exactly
the given table name, partition key name and sort key name. -/
theorem C3_processClass_key_validation (fieldNames : List String)
    (tableName : String) (pk : String) (sk : Option String) :
    (pk ∉ fieldNames →
      processClass fieldNames tableName (some pk) sk =
        .error (.exceptionError
          ("Partition Key Name \"" ++ pk ++ "\" not found in class fields"))) ∧
    (∀ s, sk = some s → s ∉ fieldNames → pk ∈ fieldNames →
      processClass fieldNames tableName (some pk) sk =
        .error (.exceptionError
          ("Sort Key Name \"" ++ s ++ "\" not found in class fields"))) ∧
    (pk ∈ fieldNames → (∀ s, sk = some s → s ∈ fieldNames) →
      processClass fieldNames tableName (some pk) sk = .ok ⟨tableName, pk, sk⟩) := by
  refine ⟨?_, ?_, ?_⟩
  · intro h
    simp only [processClass]
    rw [if_pos h]
  · intro s hs h hpk
    subst hs
    simp only [processClass]
    rw [if_neg (not_not.mpr hpk), if_pos h]
  · intro hpk hsk
    cases sk with
    | none =>
      simp only [processClass]
      rw [if_neg (not_not.mpr hpk)]
    | some s =>
      simp only [processClass]
      rw [if_neg (not_not.mpr hpk), if_neg (not_not.mpr (hsk s rfl))]

theorem C3_witness :
    processClass ["a", "b"] "t" (some "c") Option.none =
      .error (.exceptionError
        "Partition Key Name \"c\" not found in class fields") ∧
    processClass ["a", "b"] "t" (some "a") (some "z") =
      .error (.exceptionError "Sort Key Name \"z\" not found in class fields") ∧
    processClass ["a", "b"] "t" (some "a") (some "b") =
      .ok ⟨"t", "a", some "b"⟩ :=
  ⟨(C3_processClass_key_validation ["a", "b"] "t" "c" Option.none).1 (by decide),
   (C3_processClass_key_validation ["a", "b"] "t" "a" (some "z")).2.1 "z" rfl
     (by decide) (by decide),
   (C3_processClass_key_validation ["a", "b"] "t" "a" (some "b")).2.2 (by decide)
     (by intro s hs; cases hs; decide)⟩

/-- Any record field holding a value whose runtime type misses the registry
makes `_to_dynamo` raise the first such `KeyError`. -/
theorem toDynamo_error_of_unsupported :
    ∀ (inst : List (String × PyValue)) (k : String) (v : PyValue),
      (k, v) ∈ inst → TYPE_MAPPING (typeOf v) = Option.none →
      ∃ msg, toDynamo inst = .error (.keyError msg) := by
  intro inst
  induction inst with
  | nil => intro k v hmem; cases hmem
  | cons kv rest ih =>
    intro k v hmem hv
    obtain ⟨k', v'⟩ := kv
    cases hmap : TYPE_MAPPING (typeOf v') with
    | none => exact ⟨typeKeyName (typeOf v'), by rw [toDynamo, hmap]⟩
    | some entry =>
      rcases List.mem_cons.mp hmem with heq | hmem'
      · rw [show v = v' from congrArg Prod.snd heq] at hv
        rw [hv] at hmap
        cases hmap
      · obtain ⟨msg, hmsg⟩ := ih k v hmem' hv
        refine ⟨msg, ?_⟩
        rw [toDynamo, hmap, hmsg]

/-- C6: encoding a record one of whose fields holds a value of a native
class outside the supported kinds (its runtime type is neither `str`,
`float`, `int`, `bytes`, `dict`, `bool` nor `NoneType`) fails with the
`KeyError` the spec names `UnsupportedTypeError`. -/
theorem C6_unsupported_type_fails (inst : List (String × PyValue)) (k : String)
    (v : PyValue) (cn : String) (hmem : (k, v) ∈ inst)
    (hty : typeOf v = PyTypeKey.other cn) :
    ∃ msg, toDynamo inst = .error (.keyError msg) :=
  toDynamo_error_of_unsupported inst k v hmem (by rw [hty]; rfl)

theorem C6_witness :
    ∃ msg, toDynamo [("x", PyValue.obj "set")] = .error (.keyError msg) :=
  C6_unsupported_type_fails [("x", PyValue.obj "set")] "x" (PyValue.obj "set")
    "set" (List.mem_singleton.mpr rfl) rfl

/-- C2-counterexample: the claim says a Null-valued field is encoded as
`{field: {NULL: None}}`, but `_to_dynamo` looks the value's runtime type
(`NoneType`) up in `TYPE_MAPPING`, whose only null-related key is the object
`None`; the lookup raises `KeyError` and no wire item is produced. -/
theorem C2_counterexample :
    toDynamo [("x", PyValue.none)] =
      .error (.keyError "<class 'NoneType'>") ∧
    toDynamo [("x", PyValue.none)] ≠
      .ok [("x", [("NULL", PyValue.none)])] := by
  refine ⟨rfl, ?_⟩
  intro h
  rw [show toDynamo [("x", PyValue.none)] =
    .error (.keyError "<class 'NoneType'>") from rfl] at h
  exact Except.noConfusion h

/-- C2 (amended): encoding a record produces, for every field whose value's
runtime type is a registry key (str, float, int, bytes, dict and bool — and
not `None`, whose runtime type `NoneType` misses the registry), the entry
`{field_name: {wire_key: encoded_value}}` of the fixed mapping spelled out by
`encPair`: String→S (stringification), int/float→N (decimal string),
Binary→B (stringification of the bytes), Map→M (mapping passed through
untagged), Bool→BOOL (passed through). -/
theorem C2_encode_fixed_mapping (inst : List (String × PyValue))
    (h : (inst.all fun kv => (TYPE_MAPPING (typeOf kv.2)).isSome) = true) :
    toDynamo inst = .ok (inst.map fun kv => (kv.1, [encPair kv.2])) :=
  toDynamo_supported inst h

theorem C2_witness :
    toDynamo
      [("s", PyValue.str "hi"), ("n", PyValue.int (-5)),
       ("f", PyValue.float "2.5"), ("by", PyValue.bytes [65, 66]),
       ("m", PyValue.dict [(PyValue.str "a", PyValue.int 1)]),
       ("bo", PyValue.bool true)] =
      .ok
        [("s", [("S", PyValue.str "hi")]), ("n", [("N", PyValue.str "-5")]),
         ("f", [("N", PyValue.str "2.5")]),
         ("by", [("B", PyValue.str "b'AB'")]),
         ("m", [("M", PyValue.dict [(PyValue.str "a", PyValue.int 1)])]),
         ("bo", [("BOOL", PyValue.bool true)])] :=
  C2_encode_fixed_mapping _ (by decide)

/-- C1-counterexample: a record whose single Map field holds the mapping
`{"a": 1}` — which does survive a JSON stringify/parse cycle — still does
not round trip: encode passes the native dict through untagged, and decode
hands it to `json.loads`, which raises `TypeError`, so `decode(encode(r))`
is an error rather than a record equal to `r`. -/
theorem C1_counterexample :
    (encodeRecord [⟨"m", PyTypeKey.dict⟩]
        [PyValue.dict [(PyValue.str "a", PyValue.int 1)]]).bind
      (decodeRecord [⟨"m", PyTypeKey.dict⟩]) =
      .error (.typeError "the JSON object must be str, bytes or bytearray") ∧
    (encodeRecord [⟨"m", PyTypeKey.dict⟩]
        [PyValue.dict [(PyValue.str "a", PyValue.int 1)]]).bind
      (decodeRecord [⟨"m", PyTypeKey.dict⟩]) ≠
      .ok [PyValue.dict [(PyValue.str "a", PyValue.int 1)]] := by
  refine ⟨rfl, ?_⟩
  intro h
  rw [show (encodeRecord [⟨"m", PyTypeKey.dict⟩]
      [PyValue.dict [(PyValue.str "a", PyValue.int 1)]]).bind
      (decodeRecord [⟨"m", PyTypeKey.dict⟩]) =
      .error (.typeError "the JSON object must be str, bytes or bytearray")
    from rfl] at h
  exact Except.noConfusion h

/-- C1 (amended): `decode(encode(r))` returns a record equal to `r` exactly
on the fields the code can actually carry both ways: for every record whose
fields all hold String, Number (int, or float with a canonical repr) or Bool
values matching their declared types, the round trip is the identity.  (The
original claim's Map exception is forced wider by `C1_counterexample`: every
Map field fails decode with `TypeError`, JSON-expressible or not; Binary
fields fail decode the same way, and Null-valued fields already fail
encode.) -/
theorem C1_roundtrip_amended (decls : List FieldDecl) (values : List PyValue)
    (hnd : (decls.map FieldDecl.name).Nodup)
    (hlen : decls.length = values.length)
    (hok : ∀ p ∈ List.zip decls values, roundTripOK p.1 p.2 = true) :
    (encodeRecord decls values).bind (decodeRecord decls) = .ok values := by
  have hall : ((asdict decls values).all
      fun kv => (TYPE_MAPPING (typeOf kv.2)).isSome) = true := by
    rw [List.all_eq_true]
    intro kv hkv
    rw [asdict, List.zip_map_left] at hkv
    obtain ⟨⟨d, v⟩, hmem, hkv'⟩ := List.mem_map.mp hkv
    rw [← hkv']
    exact roundTripOK_supported (hok (d, v) hmem)
  have henc := toDynamo_supported _ hall
  rw [show encodeRecord decls values = toDynamo (asdict decls values) from rfl,
    henc]
  show decodeRecord decls
    ((asdict decls values).map fun kv => (kv.1, [encPair kv.2])) = .ok values
  have hf2 : List.Forall₂
      (fun d v => roundTripOK d v = true ∧ findField decls d.name = some d)
      decls values :=
    List.forall₂_iff_zip.mpr ⟨hlen, fun {a b} hab =>
      ⟨hok (a, b) hab, findField_self hnd (List.of_mem_zip hab).1⟩⟩
  have hdec := toDataclassAux_encoded decls decls values [] hf2 (by simp) hnd
  simp only [decodeRecord, toDataclass, hdec, List.nil_append]
  exact construct_asdict decls values hnd hlen

theorem C1_witness :
    (encodeRecord
        [⟨"i", PyTypeKey.str⟩, ⟨"n", PyTypeKey.int⟩,
         ⟨"f", PyTypeKey.float⟩, ⟨"b", PyTypeKey.bool⟩]
        [PyValue.str "u1", PyValue.int (-42), PyValue.float "1.5",
         PyValue.bool true]).bind
      (decodeRecord
        [⟨"i", PyTypeKey.str⟩, ⟨"n", PyTypeKey.int⟩,
         ⟨"f", PyTypeKey.float⟩, ⟨"b", PyTypeKey.bool⟩]) =
      .ok [PyValue.str "u1", PyValue.int (-42), PyValue.float "1.5",
        PyValue.bool true] :=
  C1_roundtrip_amended _ _ (by decide) rfl (by decide)

/-- `_to_dataclass` cannot succeed on a wire item containing an undeclared
key: the loop visits every entry, and the undeclared one raises when
reached (an earlier entry may raise first, hence the existential). -/
theorem toDataclassAux_error_of_undeclared (decls : List FieldDecl) :
    ∀ (item : WireItem) (kwargs : List (String × PyValue)) (k : String)
      (inner : TaggedValue),
      (k, inner) ∈ item → k ∉ decls.map FieldDecl.name →
      ∃ e, toDataclassAux decls item kwargs = .error e := by
  intro item
  induction item with
  | nil => intro kwargs k inner hmem; cases hmem
  | cons entry rest ih =>
    intro kwargs k inner hmem hk
    obtain ⟨k', inner'⟩ := entry
    rcases List.mem_cons.mp hmem with heq | hmem'
    · have hkk : k' = k := (congrArg Prod.fst heq).symm
      subst hkk
      exact ⟨_, by rw [toDataclassAux, findField_eq_none hk]⟩
    · rw [toDataclassAux]
      split
      · exact ⟨_, rfl⟩
      · split
        · exact ⟨_, rfl⟩
        · split
          · exact ⟨_, rfl⟩
          · split
            · exact ⟨_, rfl⟩
            · exact ih _ k inner hmem' hk

/-- C4: an operation given an undeclared field name fails with the
`ValueError` the spec names `UnknownFieldError`, before any storage-client
call: decoding a wire item containing an undeclared key never succeeds (and
raises exactly that error when the undeclared key is the entry reached
first), key encoding fails with exactly that error, and `get` for a
descriptor whose partition key is undeclared returns that error for every
conceivable storage client — the client is never consulted. -/
theorem C4_unknown_field (decls : List FieldDecl) (fieldName : String)
    (h : fieldName ∉ decls.map FieldDecl.name) :
    (∀ (item : WireItem) (inner : TaggedValue), (fieldName, inner) ∈ item →
      ∃ e, toDataclass decls item = .error e) ∧
    (∀ (inner : TaggedValue) (rest : WireItem),
      toDataclass decls ((fieldName, inner) :: rest) =
        .error (.valueError ("Cannot render field with name " ++ fieldName ++
          "! No such field name found!"))) ∧
    (∀ v : PyValue,
      dcFieldToDynamoField decls fieldName v =
        .error (.valueError ("Cannot render field with name " ++ fieldName ++
          "! No such field name found!"))) ∧
    (∀ (params : DCParams)
      (clientGetItem : String → WireItem → Option WireItem) (pk sk : PyValue),
      params.partitionKeyName = fieldName →
      get decls params clientGetItem pk sk =
        .error (.valueError ("Cannot render field with name " ++ fieldName ++
          "! No such field name found!"))) := by
  refine ⟨?_, ?_, ?_, ?_⟩
  · intro item inner hmem
    exact toDataclassAux_error_of_undeclared decls item [] fieldName inner hmem h
  · intro inner rest
    rw [toDataclass, toDataclassAux, findField_eq_none h]
  · intro v
    rw [dcFieldToDynamoField, findField_eq_none h]
  · intro params clientGetItem pk sk hpk
    rw [get, buildKey, hpk, dcFieldToDynamoField, findField_eq_none h]

theorem C4_witness :
    (∃ e, toDataclass [⟨"a", PyTypeKey.str⟩]
      [("a", [("S", PyValue.str "x")]), ("bogus", [("S", PyValue.str "y")])] =
        .error e) ∧
    toDataclass [⟨"a", PyTypeKey.str⟩] [("bogus", [("S", PyValue.str "y")])] =
      .error (.valueError
        "Cannot render field with name bogus! No such field name found!") ∧
    dcFieldToDynamoField [⟨"a", PyTypeKey.str⟩] "bogus" (PyValue.str "x") =
      .error (.valueError
        "Cannot render field with name bogus! No such field name found!") ∧
    get [⟨"a", PyTypeKey.str⟩] ⟨"t", "bogus", Option.none⟩
        (fun _ _ => some [("a", [("S", PyValue.str "x")])])
        (PyValue.str "x") PyValue.none =
      .error (.valueError
        "Cannot render field with name bogus! No such field name found!") :=
  have hc := C4_unknown_field [⟨"a", PyTypeKey.str⟩] "bogus" (by decide)
  ⟨hc.1 _ [("S", PyValue.str "y")]
      (List.mem_cons_of_mem _ (List.mem_singleton.mpr rfl)),
   hc.2.1 [("S", PyValue.str "y")] [],
   hc.2.2.1 (PyValue.str "x"),
   hc.2.2.2 ⟨"t", "bogus", Option.none⟩ _ (PyValue.str "x") PyValue.none rfl⟩

/-- C5: once the key is built, `get` is decided entirely by the storage
client's point lookup: no `"Item"` in the response means `ItemNotFoundError`
with the documented message, and a returned item is decoded into the record
instance `get` returns. -/
theorem C5_get_point_lookup (decls : List FieldDecl) (params : DCParams)
    (clientGetItem : String → WireItem → Option WireItem)
    (pk sk : PyValue) (key : WireItem)
    (hkey : buildKey decls params.partitionKeyName params.sortKeyName pk sk =
      .ok key) :
    (clientGetItem params.tableName key = Option.none →
      get decls params clientGetItem pk sk =
        .error (.itemNotFound
          ("Item not found for " ++ params.partitionKeyName ++ "=" ++
            pyStr pk ++ " in " ++ params.tableName))) ∧
    (∀ item, clientGetItem params.tableName key = some item →
      get decls params clientGetItem pk sk = decodeRecord decls item) := by
  constructor
  · intro hnone
    simp only [get, hkey, hnone]
  · intro item hitem
    simp only [get, hkey, hitem]

theorem C5_witness :
    get [⟨"i", PyTypeKey.str⟩] ⟨"t", "i", Option.none⟩
        (fun _ _ => Option.none) (PyValue.str "u") PyValue.none =
      .error (.itemNotFound "Item not found for i=u in t") ∧
    get [⟨"i", PyTypeKey.str⟩] ⟨"t", "i", Option.none⟩
        (fun _ _ => some [("i", [("S", PyValue.str "z")])])
        (PyValue.str "u") PyValue.none =
      decodeRecord [⟨"i", PyTypeKey.str⟩] [("i", [("S", PyValue.str "z")])] :=
  ⟨(C5_get_point_lookup [⟨"i", PyTypeKey.str⟩] ⟨"t", "i", Option.none⟩
      (fun _ _ => Option.none) (PyValue.str "u") PyValue.none
      [("i", [("S", PyValue.str "u")])] rfl).1 rfl,
   (C5_get_point_lookup [⟨"i", PyTypeKey.str⟩] ⟨"t", "i", Option.none⟩
      (fun _ _ => some [("i", [("S", PyValue.str "z")])]) (PyValue.str "u")
      PyValue.none [("i", [("S", PyValue.str "u")])] rfl).2 _ rfl⟩

/-- C7-counterexample: the claim says the key built for `get` always
contains exactly the partition-key entry (plus a sort-key entry iff one is
declared), but when the descriptor declares the sort key to be the same
field as the partition key — which `_process_class` accepts, since each need
only name a declared field — the dict assignment `key[sort_key_name] = ...`
overwrites the partition entry: the built key is the single sort-key
encoding `{"a": {"S": "y"}}` and the partition-key entry `{"S": "x"}` is not
in it. -/
theorem C7_counterexample :
    buildKey [⟨"a", PyTypeKey.str⟩] "a" (some "a") (PyValue.str "x")
        (PyValue.str "y") =
      .ok [("a", [("S", PyValue.str "y")])] ∧
    ("a", [("S", PyValue.str "x")]) ∉
      ([("a", [("S", PyValue.str "y")])] : WireItem) := by
  refine ⟨rfl, ?_⟩
  intro h
  rw [List.mem_singleton, Prod.mk.injEq, List.cons.injEq, Prod.mk.injEq] at h
  obtain ⟨-, ⟨-, hv⟩, -⟩ := h
  injection hv with hxy
  exact absurd hxy (by decide)

/-- C7 (amended): the key built for `get` is the dict
`{partition_key_name: entry}` with the sort-key entry assigned into it iff a
sort key is declared: exactly the partition-key entry when no sort key is
declared, exactly the partition-key entry followed by the sort-key entry
when the declared sort key is a different field name, and — forced by
`C7_counterexample` — exactly the overwriting sort-key entry when the
declared sort key is the partition key itself.  Every key entry is produced
by coercing the given value through the field's declared type and encoding
the result with that type's registry entry, yielding the single pair
`{wire_key: encoded_value}`. -/
theorem C7_key_codec (decls : List FieldDecl) (pkName : String)
    (skName : Option String) (pkValue skValue : PyValue) :
    (∀ entry, dcFieldToDynamoField decls pkName pkValue = .ok entry →
      (skName = Option.none →
        buildKey decls pkName skName pkValue skValue = .ok [(pkName, entry)]) ∧
      (∀ s sEntry, skName = some s → s ≠ pkName →
        dcFieldToDynamoField decls s skValue = .ok sEntry →
        buildKey decls pkName skName pkValue skValue =
          .ok [(pkName, entry), (s, sEntry)]) ∧
      (∀ sEntry, skName = some pkName →
        dcFieldToDynamoField decls pkName skValue = .ok sEntry →
        buildKey decls pkName skName pkValue skValue = .ok [(pkName, sEntry)])) ∧
    (∀ (name : String) (value : PyValue) (entry : TaggedValue),
      dcFieldToDynamoField decls name value = .ok entry →
      ∃ fd mapping coerced,
        findField decls name = some fd ∧
        TYPE_MAPPING fd.type = some mapping ∧
        callType fd.type value = .ok coerced ∧
        entry = [(mapping.key, mapping.fn coerced)]) := by
  constructor
  · intro entry hentry
    refine ⟨?_, ?_, ?_⟩
    · intro hsk
      subst hsk
      simp only [buildKey, hentry]
    · intro s sEntry hsk hne hsEntry
      subst hsk
      simp only [buildKey, hentry, hsEntry]
      rw [wireInsert,
        if_neg (by simp only [beq_iff_eq]; exact fun hEq => hne hEq.symm)]
      rfl
    · intro sEntry hsk hsEntry
      subst hsk
      simp only [buildKey, hentry, hsEntry]
      rw [wireInsert, if_pos (by simp)]
  · intro name value entry hentry
    cases hfind : findField decls name with
    | none =>
      simp only [dcFieldToDynamoField, hfind] at hentry
      exact Except.noConfusion hentry
    | some fd =>
      cases hmap : TYPE_MAPPING fd.type with
      | none =>
        simp only [dcFieldToDynamoField, hfind, hmap] at hentry
        exact Except.noConfusion hentry
      | some mapping =>
        cases hcall : callType fd.type value with
        | error e =>
          simp only [dcFieldToDynamoField, hfind, hmap, hcall] at hentry
          exact Except.noConfusion hentry
        | ok coerced =>
          simp only [dcFieldToDynamoField, hfind, hmap, hcall,
            Except.ok.injEq] at hentry
          exact ⟨fd, mapping, coerced, rfl, hmap, hcall, hentry.symm⟩

theorem C7_witness :
    buildKey [⟨"p", PyTypeKey.str⟩, ⟨"s", PyTypeKey.int⟩] "p" Option.none
        (PyValue.str "x") (PyValue.int 5) =
      .ok [("p", [("S", PyValue.str "x")])] ∧
    buildKey [⟨"p", PyTypeKey.str⟩, ⟨"s", PyTypeKey.int⟩] "p" (some "s")
        (PyValue.str "x") (PyValue.int 5) =
      .ok [("p", [("S", PyValue.str "x")]), ("s", [("N", PyValue.str "5")])] ∧
    buildKey [⟨"p", PyTypeKey.str⟩] "p" (some "p") (PyValue.str "x")
        (PyValue.str "y") =
      .ok [("p", [("S", PyValue.str "y")])] ∧
    (∃ fd mapping coerced,
      findField [⟨"p", PyTypeKey.str⟩, ⟨"s", PyTypeKey.int⟩] "p" = some fd ∧
      TYPE_MAPPING fd.type = some mapping ∧
      callType fd.type (PyValue.str "x") = .ok coerced ∧
      [("S", PyValue.str "x")] = [(mapping.key, mapping.fn coerced)]) :=
  ⟨((C7_key_codec [⟨"p", PyTypeKey.str⟩, ⟨"s", PyTypeKey.int⟩] "p" Option.none
      (PyValue.str "x") (PyValue.int 5)).1 [("S", PyValue.str "x")] rfl).1 rfl,
   ((C7_key_codec [⟨"p", PyTypeKey.str⟩, ⟨"s", PyTypeKey.int⟩] "p" (some "s")
      (PyValue.str "x") (PyValue.int 5)).1 [("S", PyValue.str "x")] rfl).2.1 "s"
      [("N", PyValue.str "5")] rfl (by decide) rfl,
   ((C7_key_codec [⟨"p", PyTypeKey.str⟩] "p" (some "p")
      (PyValue.str "x") (PyValue.str "y")).1 [("S", PyValue.str "x")] rfl).2.2
      [("S", PyValue.str "y")] rfl rfl,
   (C7_key_codec [⟨"p", PyTypeKey.str⟩, ⟨"s", PyTypeKey.int⟩] "p" Option.none
      (PyValue.str "x") (PyValue.int 5)).2 "p" (PyValue.str "x")
      [("S", PyValue.str "x")] rfl⟩

/-- The request `query` hands the storage client, given the registry entry
of the partition key's declared type. -/
def queryReq (params : DCParams) (mapping : TagEntry) (pk : PyValue)
    (index : Option String) : QueryRequest :=
  { tableName := params.tableName
    keyConditionExpression := params.partitionKeyName ++ " = :val"
    expressionAttributeValues := [(":val", [(mapping.key, .str (pyStr pk))])]
    indexName := match index with
      | some s => if s == "" then Option.none else some s
      | Option.none => Option.none }

/-- C8: `query` issues exactly one request whose key condition expression is
the string `"{partition_key_name} = :val"` — built from the partition key
name alone, with no sort-key term whether or not a sort key is declared (the
fourth conjunct: the result is invariant under any change of the declared
sort key) — then decodes every wire item of the client's reply in the
client's order, and an empty reply yields the empty list, not an error. -/
theorem C8_query_partition_condition (decls : List FieldDecl)
    (params : DCParams) (clientQuery : QueryRequest → List WireItem)
    (pk : PyValue) (index : Option String) (fd : FieldDecl) (mapping : TagEntry)
    (hfd : findField decls params.partitionKeyName = some fd)
    (hmap : TYPE_MAPPING fd.type = some mapping) :
    (query decls params clientQuery pk index =
      (clientQuery (queryReq params mapping pk index)).mapM
        (decodeRecord decls)) ∧
    ((queryReq params mapping pk index).keyConditionExpression =
      params.partitionKeyName ++ " = :val") ∧
    (clientQuery (queryReq params mapping pk index) = [] →
      query decls params clientQuery pk index = .ok []) ∧
    (∀ sk' : Option String,
      query decls { params with sortKeyName := sk' } clientQuery pk index =
        query decls params clientQuery pk index) := by
  have hq : query decls params clientQuery pk index =
      (clientQuery (queryReq params mapping pk index)).mapM
        (decodeRecord decls) := by
    simp only [query, hfd, hmap, queryReq]
  refine ⟨hq, rfl, ?_, ?_⟩
  · intro hempty
    rw [hq, hempty]
    rfl
  · intro sk'
    rfl

theorem C8_witness :
    query [⟨"p", PyTypeKey.str⟩] ⟨"t", "p", Option.none⟩ (fun _ => [])
        (PyValue.str "x") Option.none = .ok [] ∧
    (queryReq ⟨"t", "p", Option.none⟩ ⟨"S", fun x => .str (pyStr x)⟩
        (PyValue.str "x") Option.none).keyConditionExpression = "p = :val" ∧
    query [⟨"p", PyTypeKey.str⟩] ⟨"t", "p", some "zz"⟩ (fun _ => [])
        (PyValue.str "x") Option.none =
      query [⟨"p", PyTypeKey.str⟩] ⟨"t", "p", Option.none⟩ (fun _ => [])
        (PyValue.str "x") Option.none :=
  have hc := C8_query_partition_condition [⟨"p", PyTypeKey.str⟩]
    ⟨"t", "p", Option.none⟩ (fun _ => []) (PyValue.str "x") Option.none
    ⟨"p", PyTypeKey.str⟩ ⟨"S", fun x => .str (pyStr x)⟩ rfl rfl
  ⟨hc.2.2.1 rfl, hc.2.1, hc.2.2.2 (some "zz")⟩

/-- `_to_dataclass` reads, of each wire entry, only the field name and the
first value of the inner tagged dict — never the tag key. -/
theorem toDataclassAux_tag_invariant (decls : List FieldDecl) :
    ∀ (w1 w2 : WireItem) (kwargs : List (String × PyValue)),
      w1.map (fun e => (e.1, (e.2.map Prod.snd).head?)) =
        w2.map (fun e => (e.1, (e.2.map Prod.snd).head?)) →
      toDataclassAux decls w1 kwargs = toDataclassAux decls w2 kwargs := by
  intro w1
  induction w1 with
  | nil =>
    intro w2 kwargs h
    rw [List.map_nil] at h
    rw [List.map_eq_nil_iff.mp h.symm]
  | cons e1 rest1 ih =>
    intro w2 kwargs h
    cases w2 with
    | nil => rw [List.map_nil] at h; exact absurd h (by simp)
    | cons e2 rest2 =>
      obtain ⟨k1, inner1⟩ := e1
      obtain ⟨k2, inner2⟩ := e2
      rw [List.map_cons, List.map_cons, List.cons.injEq, Prod.mk.injEq] at h
      obtain ⟨⟨hk, hhead⟩, hrest⟩ := h
      subst hk
      cases hfind : findField decls k1 with
      | none => simp only [toDataclassAux, hfind]
      | some fd =>
        cases hh : (inner2.map Prod.snd).head? with
        | none => simp only [toDataclassAux, hfind, hhead, hh]
        | some fv =>
          cases hj : (if fd.type = PyTypeKey.dict
              then jsonLoads fv else Except.ok fv) with
          | error e => simp only [toDataclassAux, hfind, hhead, hh, hj]
          | ok fv' =>
            cases hc : callType fd.type fv' with
            | error e => simp only [toDataclassAux, hfind, hhead, hh, hj, hc]
            | ok coerced =>
              simp only [toDataclassAux, hfind, hhead, hh, hj, hc]
              exact ih rest2 _ hrest

/-- C9: decoding never inspects the wire tag key: for declared field names
it takes the single tagged value whatever tag carries it and coerces it only
through the field's declared type, so two wire items agreeing on field names
and first inner values — but with arbitrarily different tag keys — decode to
the same record. -/
theorem C9_decode_ignores_tags (decls : List FieldDecl) (w1 w2 : WireItem)
    (h : w1.map (fun e => (e.1, (e.2.map Prod.snd).head?)) =
      w2.map (fun e => (e.1, (e.2.map Prod.snd).head?))) :
    decodeRecord decls w1 = decodeRecord decls w2 := by
  rw [decodeRecord, decodeRecord, toDataclass, toDataclass,
    toDataclassAux_tag_invariant decls w1 w2 [] h]

theorem C9_witness :
    decodeRecord [⟨"a", PyTypeKey.str⟩] [("a", [("S", PyValue.str "x")])] =
      decodeRecord [⟨"a", PyTypeKey.str⟩]
        [("a", [("TOTALLY-UNKNOWN-TAG", PyValue.str "x")])] :=
  C9_decode_ignores_tags [⟨"a", PyTypeKey.str⟩] _ _ rfl

/-- C10: `get` always takes a `sort_key` argument (in the source it is
keyword-only with no default, so every call must pass it; the model's `get`
correspondingly always takes the parameter), and when the descriptor
declares no sort key the supplied value is ignored — the result is the same
for any two sort-key arguments, so the key sent to the storage client never
depends on it. -/
theorem C10_get_sort_key_ignored_when_undeclared (decls : List FieldDecl)
    (params : DCParams) (clientGetItem : String → WireItem → Option WireItem)
    (pk sk1 sk2 : PyValue) (h : params.sortKeyName = Option.none) :
    get decls params clientGetItem pk sk1 =
      get decls params clientGetItem pk sk2 := by
  simp only [get, buildKey, h]

theorem C10_witness :
    get [⟨"i", PyTypeKey.str⟩] ⟨"t", "i", Option.none⟩ (fun _ _ => Option.none)
        (PyValue.str "u") (PyValue.int 1) =
      get [⟨"i", PyTypeKey.str⟩] ⟨"t", "i", Option.none⟩
        (fun _ _ => Option.none) (PyValue.str "u") (PyValue.str "zz") :=
  C10_get_sort_key_ignored_when_undeclared [⟨"i", PyTypeKey.str⟩]
    ⟨"t", "i", Option.none⟩ (fun _ _ => Option.none) (PyValue.str "u")
    (PyValue.int 1) (PyValue.str "zz") rfl

end Dynamoclasses
